import Mathlib

/-!
Verification of the `newtonian-bodies` integration core
(`src/newtonian-bodies/src/dynamics.rs`).

Shallow embedding conventions:
* Rust `f64` values are modelled as exact rationals `ℚ`; IEEE rounding and
  non-finite values are not modelled, so theorems about the gravity formula
  carry explicit nonzero-divisor hypotheses where the code divides.
* `f64::sqrt` has no rational counterpart, so every definition that needs it
  takes an arbitrary function `sqrt : ℚ → ℚ` as a parameter; all claims here
  are structural and hold for (or are refuted at) an arbitrary such function.
* Rust's saturating `as usize` cast of a non-negative-or-clamped float is
  modelled by `Int.toNat` (negative values clamp to `0`, as in Rust).
* The writer trait object is modelled by an explicit state type `W` and a
  fallible step function `add : W → ℕ → List Body → Except E W`; the `?`
  operator becomes short-circuiting in the loop.
* `step % record_steps` panics in Rust when `record_steps = 0`; the panic is
  modelled as the explicit outcome `RunResult.modZeroPanic`.
* The `indicatif` progress bar is purely cosmetic terminal output and is not
  modelled.
-/

namespace NewtonianBodies

/-- Model of `Vector` from `Body.rs` (components modelled as `ℚ`). -/
structure Vector3 where
  x : ℚ
  y : ℚ
  z : ℚ
  deriving DecidableEq

/-- Model of `Body` from `Body.rs`. -/
structure Body where
  name : String
  mass : ℚ
  position : Vector3
  velocity : Vector3
  acceleration : Vector3
  deriving DecidableEq

/-- Squared distance between two bodies, as computed inline in
`update_acceleration` (`dx*dx + dy*dy + dz*dz`). -/
def distSq (body other : Body) : ℚ :=
  let dx := other.position.x - body.position.x
  let dy := other.position.y - body.position.y
  let dz := other.position.z - body.position.z
  dx * dx + dy * dy + dz * dz

/-- One iteration of the inner loop of `update_acceleration`: starting from the
partial accumulator `acc` for `body`, process one element `other` of the
pre-pass clone.  Mirrors the Rust `continue` on `body.name == other.name` and
the formulas for `r`, `f` and the three accumulated components. -/
def accelStep (sqrt : ℚ → ℚ) (gravity : ℚ) (body : Body) (acc : Vector3)
    (other : Body) : Vector3 :=
  if body.name = other.name then acc
  else
    let dx := other.position.x - body.position.x
    let dy := other.position.y - body.position.y
    let dz := other.position.z - body.position.z
    let r := sqrt (distSq body other)
    let f := gravity * body.mass * other.mass / (r * r)
    ⟨acc.x + f * dx / (r * body.mass),
     acc.y + f * dy / (r * body.mass),
     acc.z + f * dz / (r * body.mass)⟩

/-- The full inner loop of `update_acceleration` for one `body`: fold
`accelStep` over the clone of the body list, starting from `(0, 0, 0)`. -/
def codeAccel (sqrt : ℚ → ℚ) (gravity : ℚ) (bodiesClone : List Body)
    (body : Body) : Vector3 :=
  bodiesClone.foldl (accelStep sqrt gravity body) ⟨0, 0, 0⟩

/-- Model of `update_acceleration` from `dynamics.rs`.  The Rust code clones `bodies`
before the pass and reads `other` from the clone; since the pass mutates only
the `acceleration` field and reads only `name`, `mass` and `position`, the
in-place loop is exactly a `map` over the original list where each body's
acceleration is overwritten with the fold over the pre-pass list. -/
def update_acceleration (sqrt : ℚ → ℚ) (bodies : List Body) (gravity : ℚ) :
    List Body :=
  bodies.map fun body =>
    { body with acceleration := codeAccel sqrt gravity bodies body }

/-- Model of `update_velocity` from `dynamics.rs`. -/
def update_velocity (bodies : List Body) (dt : ℚ) : List Body :=
  bodies.map fun body =>
    { body with velocity :=
        ⟨body.velocity.x + body.acceleration.x * dt,
         body.velocity.y + body.acceleration.y * dt,
         body.velocity.z + body.acceleration.z * dt⟩ }

/-- Model of `update_position` from `dynamics.rs`. -/
def update_position (bodies : List Body) (dt : ℚ) : List Body :=
  bodies.map fun body =>
    { body with position :=
        ⟨body.position.x + body.velocity.x * dt,
         body.position.y + body.velocity.y * dt,
         body.position.z + body.velocity.z * dt⟩ }

/-- The body of one iteration of the `simulate` loop after the optional
recording: `update_acceleration`, then `update_velocity`, then
`update_position`, in that order. -/
def integrateStep (sqrt : ℚ → ℚ) (gravity dt : ℚ) (bodies : List Body) :
    List Body :=
  update_position (update_velocity (update_acceleration sqrt bodies gravity) dt) dt

/-- Outcome of a run of `simulate`:
`ok` is `Ok(())` (with the final writer state), `writerError e` is the `Err`
propagated by `?` from `writer.add`, and `modZeroPanic` models the Rust panic
raised by `step % record_steps` when `record_steps = 0`. -/
inductive RunResult (E W : Type) where
  | ok : W → RunResult E W
  | writerError : E → RunResult E W
  | modZeroPanic : RunResult E W
  deriving DecidableEq

/-- Model of the `for step in 0..steps` loop of `simulate`, with `fuel` remaining
iterations and `step` the current index.  Returns the list of
`(time, snapshot)` arguments handed to `writer.add` (in call order), the final
body list (the Rust caller keeps its `&mut Vec<Body>` in both the `Ok` and the
`Err` case), and the outcome. -/
def simulateLoop {W E : Type} (sqrt : ℚ → ℚ)
    (add : W → ℕ → List Body → Except E W) (gravity dt : ℚ)
    (record_steps : ℕ) :
    ℕ → ℕ → List Body → W → List (ℕ × List Body) →
      List (ℕ × List Body) × List Body × RunResult E W
  | 0, _, bodies, w, tr => (tr, bodies, RunResult.ok w)
  | fuel + 1, step, bodies, w, tr =>
    if record_steps = 0 then (tr, bodies, RunResult.modZeroPanic)
    else if step % record_steps = 0 then
      match add w step bodies with
      | Except.error e => (tr ++ [(step, bodies)], bodies, RunResult.writerError e)
      | Except.ok w' =>
          simulateLoop sqrt add gravity dt record_steps fuel (step + 1)
            (integrateStep sqrt gravity dt bodies) w' (tr ++ [(step, bodies)])
    else
      simulateLoop sqrt add gravity dt record_steps fuel (step + 1)
        (integrateStep sqrt gravity dt bodies) w tr

/-- Model of `let steps = (total_time as f64 / dt).ceil() as usize;`
(`as usize` clamps negative results to zero, as does `Int.toNat`). -/
def stepsOf (total_time dt : ℚ) : ℕ := (Int.ceil (total_time / dt)).toNat

/-- Model of `let record_steps = (record_interval as f64 / dt).ceil() as usize;`
(`record_interval` is a Rust `u64`, modelled as `ℕ`). -/
def recordStepsOf (record_interval : ℕ) (dt : ℚ) : ℕ :=
  (Int.ceil ((record_interval : ℚ) / dt)).toNat

/-- Model of `simulate` from `dynamics.rs` (progress-bar calls omitted: they only write
to the terminal). -/
def simulate {W E : Type} (sqrt : ℚ → ℚ)
    (add : W → ℕ → List Body → Except E W) (bodies : List Body)
    (gravity total_time dt : ℚ) (record_interval : ℕ) (w : W) :
    List (ℕ × List Body) × List Body × RunResult E W :=
  simulateLoop sqrt add gravity dt (recordStepsOf record_interval dt)
    (stepsOf total_time dt) 0 bodies w []

/-! ### Spec-side definitions (from the spec's wording, for comparison) -/

/-- Componentwise vector addition (spec-side helper). -/
def addV (a b : Vector3) : Vector3 := ⟨a.x + b.x, a.y + b.y, a.z + b.z⟩

/-- The spec's acceleration contribution of `other` on `body`:
`G · mass_j · d / r³` with `d = position_j − position_i` and `r = |d|`
(the same `sqrt` parameter stands for the magnitude computation). -/
def claimContrib (sqrt : ℚ → ℚ) (gravity : ℚ) (body other : Body) : Vector3 :=
  let dx := other.position.x - body.position.x
  let dy := other.position.y - body.position.y
  let dz := other.position.z - body.position.z
  let r := sqrt (distSq body other)
  ⟨gravity * other.mass * dx / (r * r * r),
   gravity * other.mass * dy / (r * r * r),
   gravity * other.mass * dz / (r * r * r)⟩

/-- Sum of the spec's contributions `G · mass_j · d / r³` over the bodies `j`
whose name differs from `body`'s, in list order. -/
def claimAccelByName (sqrt : ℚ → ℚ) (gravity : ℚ) (bodies : List Body)
    (body : Body) : Vector3 :=
  bodies.foldl
    (fun acc other =>
      if body.name = other.name then acc
      else addV acc (claimContrib sqrt gravity body other)) ⟨0, 0, 0⟩

/-- The code's per-body acceleration fold restricted to the bodies whose name
differs from `body`'s (used to state what the name-equality skip amounts
to). -/
def nameFilteredAccel (sqrt : ℚ → ℚ) (gravity : ℚ) (bodies : List Body)
    (body : Body) : Vector3 :=
  (bodies.filter (fun o => decide (¬ body.name = o.name))).foldl
    (accelStep sqrt gravity body) ⟨0, 0, 0⟩

/-- Reference recording trace: the `(time, snapshot)` pairs produced by `fuel`
loop iterations starting at index `step`, when every `add` call succeeds.
Used to state the recording-cadence claims. -/
def traceFrom (f : List Body → List Body) (r : ℕ) :
    ℕ → ℕ → List Body → List (ℕ × List Body)
  | 0, _, _ => []
  | fuel + 1, step, bodies =>
    (if step % r = 0 then [(step, bodies)] else []) ++
      traceFrom f r fuel (step + 1) (f bodies)

/-! ### Concrete fixtures for witnesses and counterexamples -/

/-- A concrete instantiation of the abstract `sqrt` parameter; the structural
claims hold for an arbitrary function, so the identity suffices for witnesses
(and the fixtures below are chosen with unit squared distances). -/
def testSqrt : ℚ → ℚ := fun q => q

/-- A body named "A" at the origin, at rest, of unit mass. -/
def bodyA : Body := ⟨"A", 1, ⟨0, 0, 0⟩, ⟨0, 0, 0⟩, ⟨0, 0, 0⟩⟩

/-- A body named "B" at `(1,0,0)`, at rest, of unit mass. -/
def bodyB : Body := ⟨"B", 1, ⟨1, 0, 0⟩, ⟨0, 0, 0⟩, ⟨0, 0, 0⟩⟩

/-- A body named "X" at the origin, at rest, of unit mass. -/
def bodyX0 : Body := ⟨"X", 1, ⟨0, 0, 0⟩, ⟨0, 0, 0⟩, ⟨0, 0, 0⟩⟩

/-- A second, distinct body that also carries the name "X". -/
def bodyX1 : Body := ⟨"X", 1, ⟨1, 0, 0⟩, ⟨0, 0, 0⟩, ⟨0, 0, 0⟩⟩

/-- A writer whose `add` always succeeds (state `Unit`). -/
def okAdd : Unit → ℕ → List Body → Except Unit Unit := fun _ _ _ => Except.ok ()

/-- A writer whose `add` always fails. -/
def failAdd : Unit → ℕ → List Body → Except Unit Unit :=
  fun _ _ _ => Except.error ()

/-- A writer that succeeds on its first call and fails on every later call
(state: number of calls made so far). -/
def countAdd : ℕ → ℕ → List Body → Except Unit ℕ :=
  fun w _ _ => if w = 0 then Except.ok 1 else Except.error ()

/-! ### Helper lemmas -/

/-- Pointwise form of one inner-loop iteration of the acceleration pass,
under the spec's data-model assumptions (nonzero mass, nonzero distance for
bodies that actually interact): the code's accumulated term
`f · d/r / mass_i` equals the spec's `G · mass_j · d / r³`. -/
theorem accelStep_eq_claim (sqrt : ℚ → ℚ) (gravity : ℚ) (b o : Body)
    (hm : b.mass ≠ 0) (hr : b.name ≠ o.name → sqrt (distSq b o) ≠ 0)
    (acc : Vector3) :
    accelStep sqrt gravity b acc o =
      if b.name = o.name then acc else addV acc (claimContrib sqrt gravity b o) := by
  by_cases h : b.name = o.name
  · simp [accelStep, h]
  · have hr' : sqrt (distSq b o) ≠ 0 := hr h
    simp only [accelStep, claimContrib, addV, if_neg h]
    congr 1 <;> (field_simp; ring)

theorem foldl_accelStep_filter (sqrt : ℚ → ℚ) (gravity : ℚ) (b : Body) :
    ∀ (l : List Body) (acc : Vector3),
      l.foldl (accelStep sqrt gravity b) acc =
        (l.filter fun o => decide (¬ b.name = o.name)).foldl
          (accelStep sqrt gravity b) acc := by
  intro l
  induction l with
  | nil => intro acc; rfl
  | cons o t ih =>
    intro acc
    by_cases h : b.name = o.name
    · have hstep : accelStep sqrt gravity b acc o = acc := if_pos h
      simp [List.filter_cons, h, List.foldl_cons, hstep, ih]
    · simp [List.filter_cons, h, List.foldl_cons, ih]

/-- The acceleration pass never changes names or masses. -/
theorem mass_map_update_acceleration (sqrt : ℚ → ℚ) (bodies : List Body)
    (gravity : ℚ) :
    (update_acceleration sqrt bodies gravity).map Body.mass =
      bodies.map Body.mass := by
  simp [update_acceleration, List.map_map, Function.comp]

/-- The velocity pass never changes masses. -/
theorem mass_map_update_velocity (bodies : List Body) (dt : ℚ) :
    (update_velocity bodies dt).map Body.mass = bodies.map Body.mass := by
  simp [update_velocity, List.map_map, Function.comp]

/-- The position pass never changes masses. -/
theorem mass_map_update_position (bodies : List Body) (dt : ℚ) :
    (update_position bodies dt).map Body.mass = bodies.map Body.mass := by
  simp [update_position, List.map_map, Function.comp]

/-- One whole integration step never changes masses. -/
theorem mass_map_integrateStep (sqrt : ℚ → ℚ) (gravity dt : ℚ)
    (bodies : List Body) :
    (integrateStep sqrt gravity dt bodies).map Body.mass =
      bodies.map Body.mass := by
  simp [integrateStep, mass_map_update_position, mass_map_update_velocity,
    mass_map_update_acceleration]

/-- Successful runs of the loop: the final bodies are `fuel` iterations of the
integration step, and the recorded trace extends the accumulator with the
reference trace. -/
theorem simulateLoop_ok {W E : Type} (sqrt : ℚ → ℚ)
    (add : W → ℕ → List Body → Except E W) (gravity dt : ℚ) (r : ℕ) :
    ∀ (fuel step : ℕ) (bodies : List Body) (w : W)
      (tr tr' : List (ℕ × List Body)) (fin : List Body) (w' : W),
      simulateLoop sqrt add gravity dt r fuel step bodies w tr =
        (tr', fin, RunResult.ok w') →
      tr' = tr ++ traceFrom (integrateStep sqrt gravity dt) r fuel step bodies ∧
        fin = (integrateStep sqrt gravity dt)^[fuel] bodies := by
  intro fuel
  induction fuel with
  | zero =>
    intro step bodies w tr tr' fin w' h
    simp only [simulateLoop, Prod.mk.injEq] at h
    obtain ⟨h1, h2, -⟩ := h
    simp [traceFrom, ← h1, ← h2]
  | succ n ih =>
    intro step bodies w tr tr' fin w' h
    by_cases hr : r = 0
    · simp [simulateLoop, hr] at h
    · by_cases hb : step % r = 0
      · cases hadd : add w step bodies with
        | error e =>
          simp [simulateLoop, if_neg hr, if_pos hb, hadd] at h
        | ok w2 =>
          simp only [simulateLoop, if_neg hr, if_pos hb, hadd] at h
          obtain ⟨h1, h2⟩ := ih (step + 1) (integrateStep sqrt gravity dt bodies)
            w2 (tr ++ [(step, bodies)]) tr' fin w' h
          constructor
          · rw [h1, traceFrom, if_pos hb, List.append_assoc]
          · rw [h2, ← Function.iterate_succ_apply]
      · simp only [simulateLoop, if_neg hr, if_neg hb] at h
        obtain ⟨h1, h2⟩ := ih (step + 1) (integrateStep sqrt gravity dt bodies)
          w tr tr' fin w' h
        constructor
        · rw [h1, traceFrom, if_neg hb, List.nil_append]
        · rw [h2, ← Function.iterate_succ_apply]

/-- Failing runs of the loop: when the result is a writer error, there is a
recording boundary at offset `j` such that exactly `j` integration steps were
performed, the trace is the successful boundaries before `j` followed by the
failing call, and some writer state produced exactly that error on the final
bodies. -/
theorem simulateLoop_err {W E : Type} (sqrt : ℚ → ℚ)
    (add : W → ℕ → List Body → Except E W) (gravity dt : ℚ) (r : ℕ) :
    ∀ (fuel step : ℕ) (bodies : List Body) (w : W)
      (tr tr' : List (ℕ × List Body)) (fin : List Body) (e : E),
      simulateLoop sqrt add gravity dt r fuel step bodies w tr =
        (tr', fin, RunResult.writerError e) →
      ∃ j, j < fuel ∧ (step + j) % r = 0 ∧
        fin = (integrateStep sqrt gravity dt)^[j] bodies ∧
        tr' = tr ++ traceFrom (integrateStep sqrt gravity dt) r j step bodies ++
          [(step + j, fin)] ∧
        ∃ w', add w' (step + j) fin = Except.error e := by
  intro fuel
  induction fuel with
  | zero =>
    intro step bodies w tr tr' fin e h
    simp [simulateLoop] at h
  | succ n ih =>
    intro step bodies w tr tr' fin e h
    by_cases hr : r = 0
    · simp [simulateLoop, hr] at h
    · by_cases hb : step % r = 0
      · cases hadd : add w step bodies with
        | error e0 =>
          simp only [simulateLoop, if_neg hr, if_pos hb, hadd,
            Prod.mk.injEq] at h
          obtain ⟨h1, h2, h3⟩ := h
          cases h3
          refine ⟨0, Nat.succ_pos n, by simpa using hb, by simp [← h2], ?_, w, ?_⟩
          · simp [traceFrom, ← h1, ← h2]
          · simp [← h2, hadd]
        | ok w2 =>
          simp only [simulateLoop, if_neg hr, if_pos hb, hadd] at h
          obtain ⟨j, hj, hjb, hfin, htr, w', hw'⟩ := ih (step + 1)
            (integrateStep sqrt gravity dt bodies) w2 (tr ++ [(step, bodies)])
            tr' fin e h
          refine ⟨j + 1, Nat.succ_lt_succ hj, ?_, ?_, ?_, w', ?_⟩
          · have : step + (j + 1) = step + 1 + j := by omega
            rw [this]; exact hjb
          · rw [hfin, ← Function.iterate_succ_apply]
          · rw [htr, traceFrom, if_pos hb]
            have : step + (j + 1) = step + 1 + j := by omega
            rw [this]
            simp [List.append_assoc]
          · have : step + (j + 1) = step + 1 + j := by omega
            rw [this]; exact hw'
      · simp only [simulateLoop, if_neg hr, if_neg hb] at h
        obtain ⟨j, hj, hjb, hfin, htr, w', hw'⟩ := ih (step + 1)
          (integrateStep sqrt gravity dt bodies) w tr tr' fin e h
        refine ⟨j + 1, Nat.succ_lt_succ hj, ?_, ?_, ?_, w', ?_⟩
        · have : step + (j + 1) = step + 1 + j := by omega
          rw [this]; exact hjb
        · rw [hfin, ← Function.iterate_succ_apply]
        · rw [htr, traceFrom, if_neg hb]
          have : step + (j + 1) = step + 1 + j := by omega
          rw [this]
          simp [List.append_assoc]
        · have : step + (j + 1) = step + 1 + j := by omega
          rw [this]; exact hw'

/-- Closed form of the reference trace: the boundaries are exactly the offsets
`j < fuel` with `(step + j) % r = 0`, and the snapshot at offset `j` is the
`j`-fold iterate of the integration step. -/
theorem traceFrom_eq_filter (f : List Body → List Body) (r : ℕ) :
    ∀ (fuel step : ℕ) (bodies : List Body),
      traceFrom f r fuel step bodies =
        ((List.range fuel).filter fun j => (step + j) % r = 0).map
          fun j => (step + j, f^[j] bodies) := by
  intro fuel
  induction fuel with
  | zero => intro step bodies; simp [traceFrom]
  | succ n ih =>
    intro step bodies
    have hg : ((fun j => (step + j, f^[j] bodies)) ∘ Nat.succ) =
        fun j => (step + 1 + j, f^[j] (f bodies)) := by
      funext j
      simp only [Function.comp_apply, Function.iterate_succ_apply]
      refine congrArg₂ _ ?_ rfl
      omega
    have hfil : List.filter ((fun j => decide ((step + j) % r = 0)) ∘ Nat.succ)
        (List.range n) =
        List.filter (fun j => decide ((step + 1 + j) % r = 0)) (List.range n) := by
      apply List.filter_congr
      intro a _
      have hsa : step + Nat.succ a = step + 1 + a := by omega
      simp [Function.comp, hsa]
    rw [traceFrom, ih (step + 1) (f bodies), List.range_succ_eq_map]
    by_cases hb : step % r = 0
    · rw [List.filter_cons_of_pos (by simpa using hb), List.filter_map,
        List.map_cons, List.map_map, hfil, hg]
      simp [hb]
    · rw [List.filter_cons_of_neg (by simpa using hb), List.filter_map,
        List.map_map, hfil, hg]
      simp [hb]

/-- The loop never changes any body's mass: the final bodies and every
recorded snapshot have the same per-body mass list as the live collection,
whatever the outcome. -/
theorem simulateLoop_mass {W E : Type} (sqrt : ℚ → ℚ)
    (add : W → ℕ → List Body → Except E W) (gravity dt : ℚ) (r : ℕ) :
    ∀ (fuel step : ℕ) (bodies : List Body) (w : W)
      (tr : List (ℕ × List Body)) (M : List ℚ),
      bodies.map Body.mass = M → (∀ p ∈ tr, p.2.map Body.mass = M) →
      ((simulateLoop sqrt add gravity dt r fuel step bodies w tr).2.1).map
          Body.mass = M ∧
        ∀ p ∈ (simulateLoop sqrt add gravity dt r fuel step bodies w tr).1,
          p.2.map Body.mass = M := by
  intro fuel
  induction fuel with
  | zero =>
    intro step bodies w tr M hbody htr
    exact ⟨hbody, htr⟩
  | succ n ih =>
    intro step bodies w tr M hbody htr
    by_cases hr : r = 0
    · simp only [simulateLoop, if_pos hr]
      exact ⟨hbody, htr⟩
    · have hstep : (integrateStep sqrt gravity dt bodies).map Body.mass = M :=
        (mass_map_integrateStep sqrt gravity dt bodies).trans hbody
      by_cases hb : step % r = 0
      · cases hadd : add w step bodies with
        | error e =>
          simp only [simulateLoop, if_neg hr, if_pos hb, hadd]
          refine ⟨hbody, ?_⟩
          intro p hp
          rcases List.mem_append.mp hp with hp | hp
          · exact htr p hp
          · rcases List.mem_singleton.mp hp with rfl
            exact hbody
        | ok w2 =>
          simp only [simulateLoop, if_neg hr, if_pos hb, hadd]
          refine ih (step + 1) (integrateStep sqrt gravity dt bodies) w2
            (tr ++ [(step, bodies)]) M hstep ?_
          intro p hp
          rcases List.mem_append.mp hp with hp | hp
          · exact htr p hp
          · rcases List.mem_singleton.mp hp with rfl
            exact hbody
      · simp only [simulateLoop, if_neg hr, if_neg hb]
        exact ih (step + 1) (integrateStep sqrt gravity dt bodies) w tr M
          hstep htr

/-! ### Claim theorems -/

/-- C1 (amended): During one integration step the acceleration pass reads
only the pre-step state: each body's acceleration is overwritten (not
accumulated across steps) with the sum, over the bodies `j` whose *name*
differs from body `i`'s (not over all other bodies `j`: the code skips by name
equality), of `G · mass_j · d / r³`, with `d` computed from positions as they
were before the pass began; stated under the data-model assumptions of
nonzero masses and nonzero distances between interacting bodies, which make
the code's `f · d/r / mass_i` equal the spec's formula in exact
arithmetic. -/
theorem C1_accel_pass_pre_step (sqrt : ℚ → ℚ) (gravity : ℚ)
    (bodies : List Body) (hm : ∀ b ∈ bodies, b.mass ≠ 0)
    (hr : ∀ b ∈ bodies, ∀ o ∈ bodies, b.name ≠ o.name →
      sqrt (distSq b o) ≠ 0) :
    update_acceleration sqrt bodies gravity =
      bodies.map fun b =>
        { b with acceleration := claimAccelByName sqrt gravity bodies b } := by
  unfold update_acceleration
  apply List.map_congr_left
  intro b hb
  have hfold : codeAccel sqrt gravity bodies b =
      claimAccelByName sqrt gravity bodies b := by
    unfold codeAccel claimAccelByName
    apply List.foldl_ext
    intro acc o ho
    exact accelStep_eq_claim sqrt gravity b o (hm b hb)
      (fun hne => hr b hb o ho hne) acc
  rw [hfold]

/-- Witness for C1: on two distinct-name unit-mass bodies one unit apart, the
pass produces exactly the spec-formula accelerations `(±1, 0, 0)`. -/
theorem C1_accel_pass_pre_step_witness :
    update_acceleration testSqrt [bodyA, bodyB] 1 =
      [⟨"A", 1, ⟨0, 0, 0⟩, ⟨0, 0, 0⟩, ⟨1, 0, 0⟩⟩,
       ⟨"B", 1, ⟨1, 0, 0⟩, ⟨0, 0, 0⟩, ⟨-1, 0, 0⟩⟩] := by
  refine (C1_accel_pass_pre_step testSqrt 1 [bodyA, bodyB] ?_ ?_).trans ?_
  · intro b hb
    simp only [List.mem_cons, List.mem_singleton, List.not_mem_nil,
      or_false] at hb
    rcases hb with rfl | rfl <;> norm_num [bodyA, bodyB]
  · intro b hb o ho hne
    simp only [List.mem_cons, List.mem_singleton, List.not_mem_nil,
      or_false] at hb ho
    rcases hb with rfl | rfl <;> rcases ho with rfl | rfl <;>
      first
        | exact absurd rfl hne
        | norm_num [testSqrt, distSq, bodyA, bodyB]
  · norm_num [claimAccelByName, claimContrib, addV, distSq, testSqrt,
      bodyA, bodyB]
    decide

/-- Counterexample to C1 as stated: with two *distinct* bodies that share the
name "X", the pass does not produce the claim's sum over the other bodies `j`
(here the single other body's contribution `(1,0,0)` resp. `(-1,0,0)`): the
name-equality skip drops the other same-named body, leaving both
accelerations zero. -/
theorem C1_counterexample :
    (update_acceleration testSqrt [bodyX0, bodyX1] 1).map Body.acceleration ≠
      [claimContrib testSqrt 1 bodyX0 bodyX1,
       claimContrib testSqrt 1 bodyX1 bodyX0] := by
  norm_num [update_acceleration, codeAccel, accelStep, claimContrib, distSq,
    testSqrt, bodyX0, bodyX1]

/-- C7 (amended): The exclusion in the acceleration pass is matched by
*name equality*, not identity: each body's new acceleration is the fold of
the code's contribution over exactly the bodies whose name differs from its
own, so two distinct bodies sharing a name erroneously skip each other, not
only the self-pairing. -/
theorem C7_skip_by_name (sqrt : ℚ → ℚ) (bodies : List Body) (gravity : ℚ) :
    update_acceleration sqrt bodies gravity =
      bodies.map fun b =>
        { b with acceleration := nameFilteredAccel sqrt gravity bodies b } := by
  unfold update_acceleration
  apply List.map_congr_left
  intro b _
  have h := foldl_accelStep_filter sqrt gravity b bodies ⟨0, 0, 0⟩
  simp only [codeAccel, nameFilteredAccel]
  rw [h]

/-- Counterexample to C7 as stated: `bodyX0` and `bodyX1` are two distinct
bodies sharing the name "X"; the claim says each one's acceleration still
includes the other's (nonzero) gravitational contribution, but the pass
computes zero acceleration for both. -/
theorem C7_counterexample :
    bodyX0.name = bodyX1.name ∧ bodyX0 ≠ bodyX1 ∧
    (update_acceleration testSqrt [bodyX0, bodyX1] 1).map Body.acceleration =
      [⟨0, 0, 0⟩, ⟨0, 0, 0⟩] ∧
    claimContrib testSqrt 1 bodyX0 bodyX1 ≠ ⟨0, 0, 0⟩ := by
  refine ⟨rfl, ?_, ?_, ?_⟩
  · simp [bodyX0, bodyX1]
  · simp [update_acceleration, codeAccel, accelStep, bodyX0, bodyX1]
  · norm_num [claimContrib, distSq, testSqrt, bodyX0, bodyX1]

/-- C2: One integration step is the three passes in order: for every body
`b` at index `i`, the step's output at `i` has the acceleration freshly
recomputed from the pre-step collection (`codeAccel` over the input list),
the velocity incremented by that *new* acceleration times `dt`, and the
position incremented by that *new* velocity times `dt`; name and mass are
untouched. -/
theorem C2_step_order (sqrt : ℚ → ℚ) (gravity dt : ℚ) (bodies : List Body)
    (i : ℕ) (b : Body) (h : bodies[i]? = some b) :
    (integrateStep sqrt gravity dt bodies)[i]? = some
      { name := b.name, mass := b.mass,
        position :=
          ⟨b.position.x + (b.velocity.x + (codeAccel sqrt gravity bodies b).x * dt) * dt,
           b.position.y + (b.velocity.y + (codeAccel sqrt gravity bodies b).y * dt) * dt,
           b.position.z + (b.velocity.z + (codeAccel sqrt gravity bodies b).z * dt) * dt⟩,
        velocity :=
          ⟨b.velocity.x + (codeAccel sqrt gravity bodies b).x * dt,
           b.velocity.y + (codeAccel sqrt gravity bodies b).y * dt,
           b.velocity.z + (codeAccel sqrt gravity bodies b).z * dt⟩,
        acceleration := codeAccel sqrt gravity bodies b } := by
  simp [integrateStep, update_position, update_velocity, update_acceleration,
    List.map_map, List.getElem?_map, h, Function.comp]

/-- Witness for C2 on a concrete two-body system with `G = dt = 1`: body "A"
gets acceleration `(1,0,0)`, hence velocity `(1,0,0)` and position
`(1,0,0)`. -/
theorem C2_step_order_witness :
    (integrateStep testSqrt 1 1 [bodyA, bodyB])[0]? =
      some ⟨"A", 1, ⟨1, 0, 0⟩, ⟨1, 0, 0⟩, ⟨1, 0, 0⟩⟩ := by
  refine (C2_step_order testSqrt 1 1 [bodyA, bodyB] 0 bodyA rfl).trans ?_
  norm_num [codeAccel, accelStep, distSq, testSqrt, bodyA, bodyB]
  decide

/-- C3: In a successful run the recorder is handed exactly the snapshots
at the step indices that are multiples of `record_steps` within `[0, steps)`,
each taken *before* integrating that step (the snapshot at boundary `k` is
the `k`-fold iterate of the integration step on the initial bodies), and the
timestamp is the integer step index itself. -/
theorem C3_recording_cadence {W E : Type} (sqrt : ℚ → ℚ)
    (add : W → ℕ → List Body → Except E W) (bodies : List Body)
    (gravity total_time dt : ℚ) (ri : ℕ) (w : W)
    (tr : List (ℕ × List Body)) (fin : List Body) (w' : W)
    (h : simulate sqrt add bodies gravity total_time dt ri w =
      (tr, fin, RunResult.ok w')) :
    tr = ((List.range (stepsOf total_time dt)).filter
        fun k => k % recordStepsOf ri dt = 0).map
      fun k => (k, (integrateStep sqrt gravity dt)^[k] bodies) := by
  simp only [simulate] at h
  have h0 := (simulateLoop_ok sqrt add gravity dt (recordStepsOf ri dt)
    (stepsOf total_time dt) 0 bodies w [] tr fin w' h).1
  rw [h0, List.nil_append, traceFrom_eq_filter]
  simp

/-- Witness for C3: a three-step run with boundaries at steps 0 and 2
records exactly those two snapshots with the step index as timestamp. -/
theorem C3_recording_cadence_witness :
    [(0, [bodyA]), (2, [bodyA])] =
      ((List.range (stepsOf 3 1)).filter
        fun k => k % recordStepsOf 2 1 = 0).map
      fun k => (k, (integrateStep testSqrt 1 1)^[k] [bodyA]) := by
  have h : simulate testSqrt okAdd [bodyA] 1 3 1 2 () =
      ([(0, [bodyA]), (2, [bodyA])], [bodyA], RunResult.ok ()) := by
    norm_num [simulate, simulateLoop, stepsOf, recordStepsOf, integrateStep,
      update_acceleration, update_velocity, update_position, codeAccel,
      accelStep, bodyA, okAdd, distSq, testSqrt]
    decide
  exact C3_recording_cadence testSqrt okAdd [bodyA] 1 3 1 2 ()
    [(0, [bodyA]), (2, [bodyA])] [bodyA] () h

/-- C4: For `total_time ≤ 0` (including negative values) and `dt > 0`,
the run computes zero steps: no snapshot is emitted, the body collection is
returned unchanged, and the outcome is success. -/
theorem C4_nonpositive_time_noop {W E : Type} (sqrt : ℚ → ℚ)
    (add : W → ℕ → List Body → Except E W) (bodies : List Body)
    (gravity total_time dt : ℚ) (ri : ℕ) (w : W)
    (ht : total_time ≤ 0) (hdt : 0 < dt) :
    simulate sqrt add bodies gravity total_time dt ri w =
      ([], bodies, RunResult.ok w) := by
  have hq : total_time / dt ≤ 0 := div_nonpos_iff.mpr (Or.inr ⟨ht, hdt.le⟩)
  have hceil : Int.ceil (total_time / dt) ≤ 0 := by
    rw [Int.ceil_le]
    exact_mod_cast hq
  have hsteps : stepsOf total_time dt = 0 := Int.toNat_eq_zero.mpr hceil
  simp only [simulate]
  rw [hsteps]
  rfl

/-- Witness for C4: a negative `total_time` with positive `dt` is a silent
no-op. -/
theorem C4_nonpositive_time_noop_witness :
    simulate testSqrt okAdd [bodyA] 1 (-5) (1/10) 1 () =
      ([], [bodyA], RunResult.ok ()) :=
  C4_nonpositive_time_noop testSqrt okAdd [bodyA] 1 (-5) (1/10) 1 ()
    (by norm_num) (by norm_num)

/-- C5: If the recorder fails, the run aborts at that very boundary: the
final bodies are exactly the state integrated up to the failing boundary `k`
(no further integration), the trace consists of the earlier boundaries'
snapshots followed by the failing call (no further snapshots), and the
propagated error is the one returned by `add` on that call. -/
theorem C5_first_error_aborts {W E : Type} (sqrt : ℚ → ℚ)
    (add : W → ℕ → List Body → Except E W) (bodies : List Body)
    (gravity total_time dt : ℚ) (ri : ℕ) (w : W)
    (tr : List (ℕ × List Body)) (fin : List Body) (e : E)
    (h : simulate sqrt add bodies gravity total_time dt ri w =
      (tr, fin, RunResult.writerError e)) :
    ∃ k, k < stepsOf total_time dt ∧ k % recordStepsOf ri dt = 0 ∧
      fin = (integrateStep sqrt gravity dt)^[k] bodies ∧
      tr = (((List.range k).filter fun j => j % recordStepsOf ri dt = 0).map
        fun j => (j, (integrateStep sqrt gravity dt)^[j] bodies)) ++
        [(k, fin)] ∧
      ∃ w', add w' k fin = Except.error e := by
  simp only [simulate] at h
  obtain ⟨j, hj, hjb, hfin, htr, w', hw'⟩ := simulateLoop_err sqrt add gravity
    dt (recordStepsOf ri dt) (stepsOf total_time dt) 0 bodies w [] tr fin e h
  simp only [Nat.zero_add] at hjb htr hw'
  refine ⟨j, hj, hjb, hfin, ?_, w', hw'⟩
  rw [htr, List.nil_append, traceFrom_eq_filter]
  simp [hfin]

/-- Witness for C5: with a writer that fails on its second call, a four-step
run with boundaries 0 and 2 aborts at step 2 with that error. -/
theorem C5_first_error_aborts_witness :
    ∃ k, k < stepsOf 4 1 ∧ k % recordStepsOf 2 1 = 0 ∧
      [bodyA] = (integrateStep testSqrt 1 1)^[k] [bodyA] ∧
      [(0, [bodyA]), (2, [bodyA])] =
        (((List.range k).filter fun j => j % recordStepsOf 2 1 = 0).map
          fun j => (j, (integrateStep testSqrt 1 1)^[j] [bodyA])) ++
          [(k, [bodyA])] ∧
      ∃ w', countAdd w' k [bodyA] = Except.error () := by
  have h : simulate testSqrt countAdd [bodyA] 1 4 1 2 0 =
      ([(0, [bodyA]), (2, [bodyA])], [bodyA], RunResult.writerError ()) := by
    norm_num [simulate, simulateLoop, stepsOf, recordStepsOf, integrateStep,
      update_acceleration, update_velocity, update_position, codeAccel,
      accelStep, bodyA, countAdd, distSq, testSqrt]
    decide
  exact C5_first_error_aborts testSqrt countAdd [bodyA] 1 4 1 2 0
    [(0, [bodyA]), (2, [bodyA])] [bodyA] () h

/-- C10: When a recorder call fails, the body collection is left exactly
in the state that was passed to the failing call (the last trace entry), and
in particular a failure at step index 0 leaves the bodies identical to the
initial conditions. -/
theorem C10_state_at_failure {W E : Type} (sqrt : ℚ → ℚ)
    (add : W → ℕ → List Body → Except E W) (bodies : List Body)
    (gravity total_time dt : ℚ) (ri : ℕ) (w : W)
    (tr : List (ℕ × List Body)) (fin : List Body) (e : E)
    (h : simulate sqrt add bodies gravity total_time dt ri w =
      (tr, fin, RunResult.writerError e)) :
    ∃ k, tr.getLast? = some (k, fin) ∧ (k = 0 → fin = bodies) := by
  simp only [simulate] at h
  obtain ⟨j, hj, hjb, hfin, htr, w', hw'⟩ := simulateLoop_err sqrt add gravity
    dt (recordStepsOf ri dt) (stepsOf total_time dt) 0 bodies w [] tr fin e h
  simp only [Nat.zero_add] at htr
  refine ⟨j, ?_, ?_⟩
  · rw [htr, List.nil_append]
    exact List.getLast?_concat _
  · intro hk
    rw [hfin, hk]
    rfl

/-- Witness for C10: an always-failing writer fails at step 0 and the bodies
come back identical to the initial conditions. -/
theorem C10_state_at_failure_witness :
    ∃ k, [(0, [bodyA])].getLast? = some (k, [bodyA]) ∧
      (k = 0 → [bodyA] = [bodyA]) := by
  have h : simulate testSqrt failAdd [bodyA] 1 3 1 2 () =
      ([(0, [bodyA])], [bodyA], RunResult.writerError ()) := by
    norm_num [simulate, simulateLoop, stepsOf, recordStepsOf, bodyA, failAdd]
  exact C10_state_at_failure testSqrt failAdd [bodyA] 1 3 1 2 ()
    [(0, [bodyA])] [bodyA] () h

/-- Counterexample to C6 as stated: the core performs no configuration
validation.  With non-positive `dt = -1/10` the run is silently accepted and
returns success (no error condition), and with `record_interval = 0` (hence
`record_steps = 0`, a configuration with non-positive `record_interval` and
`record_interval < dt`) the run is not rejected before starting either: it
reaches the remainder-by-zero inside the loop. -/
theorem C6_counterexample :
    simulate testSqrt okAdd [bodyA] 1 1 (-1/10) 1 () =
      ([], [bodyA], RunResult.ok ()) ∧
    simulate testSqrt okAdd [bodyA] 1 1 (1/10) 0 () =
      ([], [bodyA], RunResult.modZeroPanic) := by
  constructor
  · have hs : stepsOf 1 (-1/10) = 0 := by norm_num [stepsOf, Int.ceil_le]
    simp only [simulate]
    rw [hs]
    rfl
  · have hs : stepsOf 1 (1/10) = 10 := by
      norm_num [stepsOf]
      decide
    have hr : recordStepsOf 0 (1/10) = 0 := by norm_num [recordStepsOf]
    simp only [simulate]
    rw [hs, hr]
    rfl

/-- C6 (amended): The core does not validate its configuration: a
negative `dt` (with non-negative `total_time`) yields a silent zero-step
success rather than a rejection, and a configuration whose `record_steps`
evaluates to zero while the step count is positive reaches the
remainder-by-zero (modelled as the panic outcome) inside the loop instead of
failing fast before the run starts. -/
theorem C6_no_validation {W E : Type} (sqrt : ℚ → ℚ)
    (add : W → ℕ → List Body → Except E W) (bodies : List Body)
    (gravity total_time dt : ℚ) (ri : ℕ) (w : W) :
    (0 ≤ total_time → dt < 0 →
      simulate sqrt add bodies gravity total_time dt ri w =
        ([], bodies, RunResult.ok w)) ∧
    (recordStepsOf ri dt = 0 → 0 < stepsOf total_time dt →
      simulate sqrt add bodies gravity total_time dt ri w =
        ([], bodies, RunResult.modZeroPanic)) := by
  constructor
  · intro ht hdt
    have hq : total_time / dt ≤ 0 := div_nonpos_iff.mpr (Or.inl ⟨ht, hdt.le⟩)
    have hceil : Int.ceil (total_time / dt) ≤ 0 := by
      rw [Int.ceil_le]
      exact_mod_cast hq
    have hsteps : stepsOf total_time dt = 0 := Int.toNat_eq_zero.mpr hceil
    simp only [simulate]
    rw [hsteps]
    rfl
  · intro hr hpos
    obtain ⟨n, hn⟩ : ∃ n, stepsOf total_time dt = n + 1 :=
      ⟨stepsOf total_time dt - 1, by omega⟩
    simp only [simulate]
    rw [hn, hr]
    rfl

/-- Witness for the amended C6, at configurations different from the
counterexample's. -/
theorem C6_no_validation_witness :
    simulate testSqrt okAdd [bodyA] 1 2 (-1/3) 2 () =
      ([], [bodyA], RunResult.ok ()) ∧
    simulate testSqrt okAdd [bodyA] 1 1 (1/3) 0 () =
      ([], [bodyA], RunResult.modZeroPanic) := by
  constructor
  · exact (C6_no_validation testSqrt okAdd [bodyA] 1 2 (-1/3) 2 ()).1
      (by norm_num) (by norm_num)
  · refine (C6_no_validation testSqrt okAdd [bodyA] 1 1 (1/3) 0 ()).2 ?_ ?_
    · norm_num [recordStepsOf]
    · norm_num [stepsOf]

/-- C8: With `dt = 0.1`, `record_interval = 1`, `total_time = 1.0` the
driver computes `steps = 10` and `record_steps = 10`, and any successful run
calls the recorder exactly once, at step index 0, with the initial
snapshot (step 10, the next boundary, lies outside `[0, steps)`). -/
theorem C8_cadence_example {W E : Type} (sqrt : ℚ → ℚ)
    (add : W → ℕ → List Body → Except E W) (bodies : List Body)
    (gravity : ℚ) (w : W) (tr : List (ℕ × List Body)) (fin : List Body)
    (w' : W)
    (h : simulate sqrt add bodies gravity 1 (1/10) 1 w =
      (tr, fin, RunResult.ok w')) :
    stepsOf 1 (1/10) = 10 ∧ recordStepsOf 1 (1/10) = 10 ∧
      tr = [(0, bodies)] := by
  have hs : stepsOf 1 (1/10) = 10 := by
    norm_num [stepsOf]
    decide
  have hr : recordStepsOf 1 (1/10) = 10 := by
    norm_num [recordStepsOf]
    decide
  refine ⟨hs, hr, ?_⟩
  simp only [simulate] at h
  have h0 := (simulateLoop_ok sqrt add gravity (1/10) (recordStepsOf 1 (1/10))
    (stepsOf 1 (1/10)) 0 bodies w [] tr fin w' h).1
  rw [h0, List.nil_append, traceFrom_eq_filter, hs, hr]
  have hfil : ((List.range 10).filter fun j => (0 + j) % 10 = 0) = [0] := by
    decide
  rw [hfil]
  simp

/-- Witness for C8: a concrete successful run (empty body list, always-ok
writer) records exactly one snapshot, at step 0. -/
theorem C8_cadence_example_witness :
    stepsOf 1 (1/10) = 10 ∧ recordStepsOf 1 (1/10) = 10 ∧
      ([(0, ([] : List Body))] : List (ℕ × List Body)) = [(0, [])] := by
  have h : simulate testSqrt okAdd ([] : List Body) 1 1 (1/10) 1 () =
      ([(0, [])], [], RunResult.ok ()) := by
    norm_num [simulate, simulateLoop, stepsOf, recordStepsOf, integrateStep,
      update_acceleration, update_velocity, update_position, okAdd]
    decide
  exact C8_cadence_example testSqrt okAdd [] 1 () [(0, [])] [] () h

/-- C9: No operation of the core ever mutates a body's mass: whatever the
outcome, the final body collection and every recorded snapshot carry exactly
the initial per-body mass list (hence the same total mass at every step). -/
theorem C9_mass_conserved {W E : Type} (sqrt : ℚ → ℚ)
    (add : W → ℕ → List Body → Except E W) (bodies : List Body)
    (gravity total_time dt : ℚ) (ri : ℕ) (w : W) :
    ((simulate sqrt add bodies gravity total_time dt ri w).2.1).map
        Body.mass = bodies.map Body.mass ∧
      ∀ p ∈ (simulate sqrt add bodies gravity total_time dt ri w).1,
        p.2.map Body.mass = bodies.map Body.mass := by
  simp only [simulate]
  exact simulateLoop_mass sqrt add gravity dt (recordStepsOf ri dt)
    (stepsOf total_time dt) 0 bodies w [] (bodies.map Body.mass) rfl
    (fun p hp => absurd hp (List.not_mem_nil p))

/-- Witness for C9 on a concrete run, discharging the trace-membership
hypothesis at the snapshot recorded at step 0. -/
theorem C9_mass_conserved_witness :
    ((simulate testSqrt okAdd [bodyA] 1 3 1 2 ()).2.1).map Body.mass =
      [bodyA].map Body.mass ∧
    [bodyA].map Body.mass = [bodyA].map Body.mass := by
  refine ⟨(C9_mass_conserved testSqrt okAdd [bodyA] 1 3 1 2 ()).1, ?_⟩
  have h : simulate testSqrt okAdd [bodyA] 1 3 1 2 () =
      ([(0, [bodyA]), (2, [bodyA])], [bodyA], RunResult.ok ()) := by
    norm_num [simulate, simulateLoop, stepsOf, recordStepsOf, integrateStep,
      update_acceleration, update_velocity, update_position, codeAccel,
      accelStep, bodyA, okAdd, distSq, testSqrt]
    decide
  exact (C9_mass_conserved testSqrt okAdd [bodyA] 1 3 1 2 ()).2 (0, [bodyA])
    (by rw [h]; simp)

end NewtonianBodies
